import Mathlib

/-!
Verification development for the sandbox session lifecycle manager
(`DockerService`, `ClaudeCodeService` and the shared `ClaudeCodeSession`
data model).  The TypeScript sources are embedded shallowly: the in-memory
`Map` of sessions becomes an association list `Registry`, asynchronous
calls against the container engine and the filesystem become explicit
outcome environments, and the cooperative event loop (for the concurrency
analysis of `processMessage`) becomes a small-step machine whose atomic
segments are exactly the stretches of code between `await` points.
-/

namespace V59

/-- `ClaudeCodeSession.status` from `src/types`: `'running' | 'completed' | 'failed'`. -/
inductive Status where
  | running
  | completed
  | failed
deriving DecidableEq, Repr

/-- `ClaudeCodeSession` from `src/types`.  `createdAt` is the epoch-millisecond
value of the `Date` object (`Date.now()` / `getTime()`), embedded as `Int`. -/
structure Session where
  id : String
  containerId : String
  threadId : String
  channelId : String
  userId : String
  status : Status
  createdAt : Int
deriving DecidableEq, Repr

/-- The session record built by `DockerService.createSession` (lines 61-69):
`sessionId = threadId`, status `running`, `createdAt = new Date()`. -/
def mkSession (threadId channelId userId containerId : String) (now : Int) : Session :=
  { id := threadId
    containerId := containerId
    threadId := threadId
    channelId := channelId
    userId := userId
    status := Status.running
    createdAt := now }

/-- The `sessions : Map<string, ClaudeCodeSession>` of `DockerService`,
embedded as an association list in insertion order (JS `Map` iteration
order is insertion order; `Map.set` on an existing key updates in place). -/
abbrev Registry := List (String × Session)

/-- `sessions.get(key)`. -/
def Registry.get (r : Registry) (k : String) : Option Session :=
  (r.find? (fun p => p.1 == k)).map (fun p => p.2)

/-- `sessions.set(key, s)`: replace in place when the key is present,
append otherwise (JS `Map.set` semantics). -/
def Registry.set (r : Registry) (k : String) (s : Session) : Registry :=
  if (r.find? (fun p => p.1 == k)).isSome then
    r.map (fun p => if p.1 == k then (k, s) else p)
  else
    r ++ [(k, s)]

/-- `sessions.delete(key)`. -/
def Registry.delete (r : Registry) (k : String) : Registry :=
  r.filter (fun p => p.1 != k)

/-- `DockerService.getSessionByThread`: linear scan of the map values for a
matching `threadId` (lines 254-258). -/
def getSessionByThread (r : Registry) (threadId : String) : Option Session :=
  (r.map (fun p => p.2)).find? (fun s => s.threadId == threadId)

/-- Keys of the registry, used to state the `Map` key-uniqueness invariant. -/
def keys (r : Registry) : List String := r.map Prod.fst

/-- A JS `Map` never holds two entries with the same key. -/
def nodupKeys (r : Registry) : Prop := (keys r).Nodup

instance (r : Registry) : Decidable (nodupKeys r) := by
  unfold nodupKeys; infer_instance

/- ### Exec results and artifact classification (`ClaudeCodeService`) -/

/-- Artifact type tags used by `getFileType`. -/
inductive FileType where
  | file
  | code
deriving DecidableEq, Repr

/-- One entry returned by `DockerService.getWorkspaceFiles`. -/
structure FileEntry where
  path : String
  content : String
deriving DecidableEq, Repr

/-- One artifact of `ClaudeCodeResponse.artifacts`. -/
structure Artifact where
  type : FileType
  path : String
  content : String
deriving DecidableEq, Repr

/-- `ClaudeCodeResponse` from `src/types`: optional fields become `Option`;
an `artifacts` value of `none` is the JS `undefined` (field absent), which
is distinct from `some []` (an empty array). -/
structure ClaudeCodeResponse where
  success : Bool
  output : Option String
  error : Option String
  artifacts : Option (List Artifact)
deriving DecidableEq, Repr

/-- The extension table of `ClaudeCodeService.isCodeFile` (lines 241-267),
in source order. -/
def codeExtensions : List String :=
  [".ts", ".js", ".tsx", ".jsx", ".py", ".java", ".c", ".cpp", ".go", ".rs",
   ".rb", ".php", ".swift", ".kt", ".cs", ".html", ".css", ".scss", ".json",
   ".yaml", ".yml", ".toml", ".md", ".sh", ".bash"]

/-- `ClaudeCodeService.isCodeFile`: `codeExtensions.some(ext => filePath.endsWith(ext))`. -/
def isCodeFile (filePath : String) : Bool :=
  codeExtensions.any (fun ext => filePath.endsWith ext)

/-- `ClaudeCodeService.getFileType` (lines 274-276). -/
def getFileType (filePath : String) : FileType :=
  if isCodeFile filePath then FileType.code else FileType.file

/-- The artifact list built in `executeClaudeCode` (lines 140-144):
`files.map(file => ({type: getFileType(file.path), path, content}))`. -/
def mkArtifacts (files : List FileEntry) : List Artifact :=
  files.map (fun f => { type := getFileType f.path, path := f.path, content := f.content })

/-- Outcome of one `DockerService.executeCommand` call: either the demuxed
`(stdout, stderr)` pair (the container process's exit code also exists in
the engine but is never surfaced by `executeCommand`, so it is carried here
only to state that results do not depend on it), or a thrown error. -/
inductive ExecOutcome where
  | ok (stdout stderr : String) (exitCode : Int)
  | err (msg : String)
deriving DecidableEq, Repr

/-- The I/O environment one `executeClaudeCode` call runs against:
the seeding `sh -c 'echo ... > file'` exec, the `ccr code ...` exec, and
the `getWorkspaceFiles` walk (which either returns the file list or throws). -/
structure ExecEnv where
  seed : ExecOutcome
  run : ExecOutcome
  files : Except String (List FileEntry)

/-- `ClaudeCodeService.executeClaudeCode` (lines 108-153): on the success
path `success := !result.stderr`, `output := result.stdout`,
`error := result.stderr || undefined`, `artifacts := files.map(...)`;
any thrown error is caught and mapped to
`success: false, error: message` with `output` and `artifacts` absent. -/
def executeClaudeCode (env : ExecEnv) : ClaudeCodeResponse :=
  match env.seed with
  | ExecOutcome.err m =>
      { success := false, output := none, error := some m, artifacts := none }
  | ExecOutcome.ok _ _ _ =>
    match env.run with
    | ExecOutcome.err m =>
        { success := false, output := none, error := some m, artifacts := none }
    | ExecOutcome.ok stdout stderr _ =>
      match env.files with
      | Except.error m =>
          { success := false, output := none, error := some m, artifacts := none }
      | Except.ok files =>
          { success := stderr.isEmpty
            output := some stdout
            error := if stderr.isEmpty then none else some stderr
            artifacts := some (mkArtifacts files) }

/- ### Teardown and the cleanup sweep (`DockerService`) -/

/-- Result of one `DockerService.stopSession` call.  `stopped` is the
session record as mutated by the call (`session.status = 'completed'`
happens on the shared object just before `sessions.delete`), `err` is the
rethrown engine error when `container.stop()` / `container.remove()`
throws. -/
structure StopResult where
  registry : Registry
  stopped : Option Session
  err : Option String
deriving Repr

/-- `DockerService.stopSession` (lines 174-199).  A missing session only
logs a warning and returns.  The engine teardown is abstracted by
`fails : containerId -> Bool`; on failure the error is logged and
rethrown with the registry untouched (the `catch` block performs no
cleanup).  On success the record's status is set to `completed` and the
entry is deleted. -/
def stopSession (fails : String → Bool) (r : Registry) (sessionId : String) : StopResult :=
  match Registry.get r sessionId with
  | none => { registry := r, stopped := none, err := none }
  | some s =>
    if fails s.containerId then
      { registry := r, stopped := none, err := some "TeardownFailure" }
    else
      { registry := Registry.delete r sessionId
        stopped := some { s with status := Status.completed }
        err := none }

/-- The loop body of `cleanupOldSessions`: iterate the entries captured at
sweep start, stop each session whose age strictly exceeds `maxAge`
milliseconds, and — because the `await this.stopSession(...)` is not
wrapped in a `try` and `stopSession` rethrows — abort the whole sweep on
the first teardown error.  Returns the registry at the moment the sweep
ended together with the propagated error, if any. -/
def cleanupGo (fails : String → Bool) (now maxAge : Int) :
    List (String × Session) → Registry → Registry × Option String
  | [], acc => (acc, none)
  | (sid, s) :: rest, acc =>
    if now - s.createdAt > maxAge then
      match stopSession fails acc sid with
      | { registry := reg, stopped := _, err := some e } => (reg, some e)
      | { registry := reg, stopped := _, err := none } =>
          cleanupGo fails now maxAge rest reg
    else
      cleanupGo fails now maxAge rest acc

/-- `DockerService.cleanupOldSessions` (lines 238-249):
`now = Date.now()` once, `maxAge = maxAgeHours * 60 * 60 * 1000`,
then the sweep over `sessions.entries()`. -/
def cleanupOldSessions (fails : String → Bool) (now : Int) (maxAgeHours : Int)
    (r : Registry) : Registry × Option String :=
  cleanupGo fails now (maxAgeHours * 60 * 60 * 1000) r r

/- ### Provisioning (`DockerService.createSession`) -/

/-- Which engine/filesystem steps of one `createSession` call throw. -/
structure ProvisionEnv where
  workspaceFails : Bool
  createFails : Bool
  startFails : Bool

/-- Outcome of one `createSession` call.  `created` lists container ids the
engine was asked to create during the call and `removed` lists container
ids the call stopped or removed again — `createSession`'s `catch` block
only logs and rethrows, so the source never populates `removed`. -/
structure CreateOutcome where
  registry : Registry
  result : Except String Session
  created : List String
  removed : List String

/-- `DockerService.createSession` (lines 30-85), in source order:
`createWorkspace` (mkdir), `docker.createContainer`, **then**
`sessions.set(sessionId, session)` (line 71), **then** `container.start()`
(line 74).  Any throw is logged and rethrown; nothing created is torn
down and a session registered before a failing `start` stays registered. -/
def createSession (env : ProvisionEnv) (r : Registry)
    (threadId channelId userId : String) (cid : String) (now : Int) : CreateOutcome :=
  if env.workspaceFails then
    { registry := r, result := Except.error "workspace creation failed"
      created := [], removed := [] }
  else if env.createFails then
    { registry := r, result := Except.error "container create failed"
      created := [], removed := [] }
  else
    let s := mkSession threadId channelId userId cid now
    let r' := Registry.set r threadId s
    if env.startFails then
      { registry := r', result := Except.error "container start failed"
        created := [cid], removed := [] }
    else
      { registry := r', result := Except.ok s
        created := [cid], removed := [] }

/- ### Sequential `processMessage` (registry effect) -/

/-- The registry-affecting skeleton of `ClaudeCodeService.processMessage`
(lines 26-103) for a run whose provisioning succeeds: look up the thread's
session, create one if absent, then run `executeClaudeCode`.  No branch of
`processMessage` (including the error-reporting ones) ever writes a
session's `status`. -/
def processCommand (env : ExecEnv) (r : Registry)
    (threadId channelId userId : String) (newContainerId : String) (now : Int) :
    Registry × ClaudeCodeResponse :=
  match getSessionByThread r threadId with
  | some _ => (r, executeClaudeCode env)
  | none =>
      let s := mkSession threadId channelId userId newContainerId now
      (Registry.set r threadId s, executeClaudeCode env)

/- ### Concurrent `processMessage`: event-loop step machine -/

/-- Program counter of one in-flight `processMessage` handler for an
unprovisioned thread, one constructor per atomic segment between `await`
points:
`checkRegistry` — the synchronous `getSessionByThread` check, after which
the handler awaits `addReaction('hourglass')`;
`afterReaction` — resumption entering `createSession`, which awaits
`fs.mkdir`;
`afterWorkspace` — resumption calling `docker.createContainer`;
`afterCreate` — resumption holding the fresh container id: builds the
session record, performs the synchronous `sessions.set`, then awaits
`container.start()`;
`execPhase` / `done` — the remainder of the handler with its session. -/
inductive TaskPC where
  | checkRegistry
  | afterReaction
  | afterWorkspace
  | afterCreate (cid : String)
  | execPhase (s : Session)
  | done (s : Session)
deriving DecidableEq, Repr

/-- Shared state of the event loop: the `DockerService` registry and how
many containers the engine has been asked to create. -/
structure GState where
  registry : Registry
  containersCreated : Nat
deriving Repr

/-- Container ids handed out by the engine, in creation order. -/
def containerName (n : Nat) : String := "container-" ++ toString n

/-- One atomic segment of a `processMessage` handler for `threadId`. -/
def stepTask (threadId channelId userId : String) (now : Int) :
    GState → TaskPC → GState × TaskPC
  | g, TaskPC.checkRegistry =>
    match getSessionByThread g.registry threadId with
    | some s => (g, TaskPC.execPhase s)
    | none => (g, TaskPC.afterReaction)
  | g, TaskPC.afterReaction => (g, TaskPC.afterWorkspace)
  | g, TaskPC.afterWorkspace =>
      ({ g with containersCreated := g.containersCreated + 1 },
       TaskPC.afterCreate (containerName g.containersCreated))
  | g, TaskPC.afterCreate cid =>
      let s := mkSession threadId channelId userId cid now
      ({ g with registry := Registry.set g.registry threadId s }, TaskPC.execPhase s)
  | g, TaskPC.execPhase s => (g, TaskPC.done s)
  | g, TaskPC.done s => (g, TaskPC.done s)

/-- Run two concurrent `processMessage` handlers for the same thread under
an explicit schedule (`true` steps the first handler, `false` the second). -/
def runTwo (threadId channelId userId : String) (now : Int) :
    List Bool → GState → TaskPC → TaskPC → GState × TaskPC × TaskPC
  | [], g, p1, p2 => (g, p1, p2)
  | true :: rest, g, p1, p2 =>
      let gp := stepTask threadId channelId userId now g p1
      runTwo threadId channelId userId now rest gp.1 gp.2 p2
  | false :: rest, g, p1, p2 =>
      let gp := stepTask threadId channelId userId now g p2
      runTwo threadId channelId userId now rest gp.1 p1 gp.2

/- ### Shell seeding of the user message (`executeClaudeCode` lines 112-119) -/

/-- The escaping applied before interpolation into the double-quoted `echo`
argument: `userMessage.replace(/"/g, '\\"')` — every `"` becomes `\"`, and
nothing else is touched. -/
def escapeMessage (msg : String) : String :=
  String.mk ((msg.data.map (fun c => if c = '"' then ['\\', '"'] else [c])).flatten)

/-- The `sh -c` script the code builds (line 118). -/
def seedScript (msg : String) (messageFile : String) : String :=
  "echo \"" ++ escapeMessage msg ++ "\" > " ++ messageFile

/-- Modelled from POSIX shell semantics (not from this repository): the
literal character sequence a double-quoted word denotes, or `none` when
the shell would not treat the word as pure literal text — an unescaped
`$` (parameter/command expansion), an unescaped backtick (command
substitution), or an unescaped `"` (which ends the quoted word early).
Inside double quotes a backslash escapes only `$`, backtick, `"` and `\`;
before any other character the backslash is kept literally. -/
def dqContent : List Char → Option (List Char)
  | [] => some []
  | c :: rest =>
    if c = '\\' then
      match rest with
      | [] => none
      | d :: rest' =>
        if d = '$' ∨ d = '`' ∨ d = '"' ∨ d = '\\' then
          (dqContent rest').map (fun l => d :: l)
        else
          (dqContent rest').map (fun l => c :: d :: l)
    else if c = '$' ∨ c = '`' ∨ c = '"' then
      none
    else
      (dqContent rest).map (fun l => c :: l)

/- ### Reachable registry states -/

/-- Registry states reachable by any sequence of the three registry-mutating
operations of `DockerService`: `createSession` (whether it returns or
throws), `stopSession` (idem) and `cleanupOldSessions` (whether the sweep
completes or aborts), starting from the empty map of the constructor. -/
inductive Reachable : Registry → Prop where
  | init : Reachable []
  | create (env : ProvisionEnv) (t ch u cid : String) (now : Int) {r : Registry}
      (h : Reachable r) : Reachable (createSession env r t ch u cid now).registry
  | stop (fails : String → Bool) (sid : String) {r : Registry}
      (h : Reachable r) : Reachable (stopSession fails r sid).registry
  | sweep (fails : String → Bool) (now maxAgeHours : Int) {r : Registry}
      (h : Reachable r) : Reachable (cleanupOldSessions fails now maxAgeHours r).1

/- ### Registry lemmas -/

lemma mem_set {r : Registry} {k : String} {s : Session} {p : String × Session}
    (hp : p ∈ Registry.set r k s) : p = (k, s) ∨ p ∈ r := by
  unfold Registry.set at hp
  split at hp
  · rcases List.mem_map.mp hp with ⟨q, hq, he⟩
    by_cases hk : q.1 == k
    · left; rw [← he, if_pos hk]
    · right; rw [← he, if_neg hk]; exact hq
  · rcases List.mem_append.mp hp with h | h
    · right; exact h
    · left; simpa using h

lemma keys_set (r : Registry) (k : String) (s : Session) :
    keys (Registry.set r k s)
      = if (r.find? (fun p => p.1 == k)).isSome then keys r else keys r ++ [k] := by
  unfold Registry.set keys
  split
  · rw [List.map_map]
    apply List.map_congr_left
    intro q _
    by_cases hk : q.1 == k
    · simp only [Function.comp_apply, if_pos hk]
      exact (eq_of_beq hk).symm
    · simp only [Function.comp_apply, if_neg hk]
  · simp

lemma not_mem_keys_of_find?_none {r : Registry} {k : String}
    (h : r.find? (fun p => p.1 == k) = none) : k ∉ keys r := by
  intro hk
  rcases List.mem_map.mp hk with ⟨p, hp, he⟩
  have := List.find?_eq_none.mp h p hp
  simp [he] at this

lemma nodupKeys_set {r : Registry} (k : String) (s : Session)
    (h : nodupKeys r) : nodupKeys (Registry.set r k s) := by
  unfold nodupKeys
  rw [keys_set]
  split
  · exact h
  · rename_i hfind
    have hnone : r.find? (fun p => p.1 == k) = none :=
      Option.not_isSome_iff_eq_none.mp hfind
    rw [List.nodup_append]
    exact ⟨h, List.nodup_singleton k,
      fun a ha hb => by
        rw [List.mem_singleton.mp hb] at ha
        exact not_mem_keys_of_find?_none hnone ha⟩

lemma mem_delete {r : Registry} {k : String} {p : String × Session}
    (hp : p ∈ Registry.delete r k) : p ∈ r :=
  List.mem_of_mem_filter hp

lemma nodupKeys_delete {r : Registry} (k : String)
    (h : nodupKeys r) : nodupKeys (Registry.delete r k) := by
  unfold nodupKeys keys at h ⊢
  exact (List.Sublist.map Prod.fst (List.filter_sublist r)).nodup h

lemma get_delete_self (r : Registry) (k : String) :
    Registry.get (Registry.delete r k) k = none := by
  unfold Registry.get Registry.delete
  rw [List.find?_eq_none.mpr]
  · rfl
  · intro p hp
    have := List.of_mem_filter hp
    simpa using this

lemma delete_of_get_none {r : Registry} {k : String}
    (h : Registry.get r k = none) : Registry.delete r k = r := by
  unfold Registry.get at h
  have hnone : r.find? (fun p => p.1 == k) = none := by
    cases hf : r.find? (fun p => p.1 == k) with
    | none => rfl
    | some p => rw [hf] at h; simp at h
  unfold Registry.delete
  apply List.filter_eq_self.mpr
  intro p hp
  have := List.find?_eq_none.mp hnone p hp
  simpa using this

/- ### The registry invariant and its preservation -/

/-- Shape of every record `DockerService` ever stores: the id and the
thread id equal the map key, and the stored status is `running` (the only
status write, `stopSession`'s `'completed'`, is immediately followed by
`sessions.delete`). -/
def SessionsWF (r : Registry) : Prop :=
  ∀ p ∈ r, p.2.id = p.1 ∧ p.2.threadId = p.1 ∧ p.2.status = Status.running

/-- Full registry invariant: JS `Map` key uniqueness plus `SessionsWF`. -/
def Inv (r : Registry) : Prop := nodupKeys r ∧ SessionsWF r

lemma inv_set_mkSession {r : Registry} (t ch u cid : String) (now : Int)
    (h : Inv r) : Inv (Registry.set r t (mkSession t ch u cid now)) := by
  refine ⟨nodupKeys_set t _ h.1, fun p hp => ?_⟩
  rcases mem_set hp with he | hm
  · rw [he]; exact ⟨rfl, rfl, rfl⟩
  · exact h.2 p hm

lemma inv_stopSession {r : Registry} (fails : String → Bool) (sid : String)
    (h : Inv r) : Inv (stopSession fails r sid).registry := by
  cases hg : Registry.get r sid with
  | none => simpa [stopSession, hg] using h
  | some s =>
    by_cases hf : fails s.containerId
    · simpa [stopSession, hg, hf] using h
    · simp only [stopSession, hg, hf]
      exact ⟨nodupKeys_delete sid h.1, fun p hp => h.2 p (mem_delete hp)⟩

lemma inv_cleanupGo (fails : String → Bool) (now m : Int) :
    ∀ (entries : List (String × Session)) (acc : Registry), Inv acc →
      Inv (cleanupGo fails now m entries acc).1 := by
  intro entries
  induction entries with
  | nil => intro acc h; exact h
  | cons e rest ih =>
    intro acc h
    rcases e with ⟨sid, s⟩
    have hstop : Inv (stopSession fails acc sid).registry := inv_stopSession fails sid h
    rw [cleanupGo]
    by_cases hexp : now - s.createdAt > m
    · rw [if_pos hexp]
      cases hres : stopSession fails acc sid with
      | mk reg st err =>
        rw [hres] at hstop
        cases err with
        | some msg => exact hstop
        | none => exact ih _ hstop
    · rw [if_neg hexp]
      exact ih _ h

lemma inv_createSession {r : Registry} (env : ProvisionEnv)
    (t ch u cid : String) (now : Int)
    (h : Inv r) : Inv (createSession env r t ch u cid now).registry := by
  unfold createSession
  by_cases hw : env.workspaceFails
  · rw [if_pos hw]; exact h
  · rw [if_neg hw]
    by_cases hc : env.createFails
    · rw [if_pos hc]; exact h
    · rw [if_neg hc]
      by_cases hs : env.startFails
      · rw [if_pos hs]; exact inv_set_mkSession t ch u cid now h
      · rw [if_neg hs]; exact inv_set_mkSession t ch u cid now h

lemma reachable_inv {r : Registry} (h : Reachable r) : Inv r := by
  induction h with
  | init => exact ⟨List.nodup_nil, fun p hp => absurd hp (List.not_mem_nil p)⟩
  | create env t ch u cid now _ ih => exact inv_createSession env t ch u cid now ih
  | stop fails sid _ ih => exact inv_stopSession fails sid ih
  | sweep fails now maxAgeHours _ ih => exact inv_cleanupGo fails now _ _ _ ih

/- ### The failure-free sweep evicts exactly the expired sessions -/

/-- When every engine teardown succeeds, `stopSession` always ends with the
entry deleted (deleting an absent key is the identity) and no error. -/
lemma stopSession_noFail (r : Registry) (sid : String) :
    stopSession (fun _ => false) r sid
      = { registry := Registry.delete r sid
          stopped := (Registry.get r sid).map (fun s => { s with status := Status.completed })
          err := none } := by
  cases hg : Registry.get r sid with
  | none => simp [stopSession, hg, delete_of_get_none hg]
  | some s => simp [stopSession, hg]

/-- Eviction step used to describe the failure-free sweep. -/
def evictStep (now m : Int) (a : Registry) (e : String × Session) : Registry :=
  if now - e.2.createdAt > m then Registry.delete a e.1 else a

lemma cleanupGo_noFail (now m : Int) :
    ∀ (entries : List (String × Session)) (acc : Registry),
      cleanupGo (fun _ => false) now m entries acc
        = (entries.foldl (evictStep now m) acc, none) := by
  intro entries
  induction entries with
  | nil => intro acc; rfl
  | cons e rest ih =>
    intro acc
    rcases e with ⟨sid, s⟩
    rw [cleanupGo, stopSession_noFail]
    by_cases hexp : now - s.createdAt > m
    · rw [if_pos hexp]
      show cleanupGo (fun _ => false) now m rest (Registry.delete acc sid)
        = (List.foldl (evictStep now m) acc ((sid, s) :: rest), none)
      rw [ih, List.foldl_cons]
      simp [evictStep, hexp]
    · rw [if_neg hexp, ih, List.foldl_cons]
      simp [evictStep, hexp]

lemma foldl_evict_cons (now m : Int) (k : String) (s : Session) :
    ∀ (entries : List (String × Session)) (acc : Registry),
      (∀ e ∈ entries, e.1 ≠ k) →
      entries.foldl (evictStep now m) ((k, s) :: acc)
        = (k, s) :: entries.foldl (evictStep now m) acc := by
  intro entries
  induction entries with
  | nil => intro acc _; rfl
  | cons e rest ih =>
    intro acc hne
    rcases e with ⟨sid, t⟩
    have hk : sid ≠ k := hne (sid, t) (List.mem_cons_self _ _)
    rw [List.foldl_cons, List.foldl_cons]
    have hdel : Registry.delete ((k, s) :: acc) sid = (k, s) :: Registry.delete acc sid := by
      unfold Registry.delete
      rw [List.filter_cons]
      simp [Ne.symm hk]
    by_cases hexp : now - t.createdAt > m
    · rw [show evictStep now m ((k, s) :: acc) (sid, t) = (k, s) :: Registry.delete acc sid by
          simp [evictStep, hexp, hdel],
        show evictStep now m acc (sid, t) = Registry.delete acc sid by simp [evictStep, hexp]]
      exact ih _ (fun e he => hne e (List.mem_cons_of_mem _ he))
    · rw [show evictStep now m ((k, s) :: acc) (sid, t) = (k, s) :: acc by
          simp [evictStep, hexp],
        show evictStep now m acc (sid, t) = acc by simp [evictStep, hexp]]
      exact ih _ (fun e he => hne e (List.mem_cons_of_mem _ he))

lemma foldl_evict_eq_filter (now m : Int) :
    ∀ (r : Registry), nodupKeys r →
      r.foldl (evictStep now m) r
        = r.filter (fun p => decide (now - p.2.createdAt ≤ m)) := by
  intro r
  induction r with
  | nil => intro _; rfl
  | cons e rest ih =>
    intro h
    rcases e with ⟨k, s⟩
    have hkeys : k ∉ keys rest ∧ nodupKeys rest := by
      unfold nodupKeys keys at h
      rw [List.map_cons, List.nodup_cons] at h
      exact ⟨fun hm => h.1 hm, h.2⟩
    have hne : ∀ e ∈ rest, e.1 ≠ k := by
      intro e he hek
      exact hkeys.1 (List.mem_map.mpr ⟨e, he, hek⟩)
    rw [List.foldl_cons]
    by_cases hexp : now - s.createdAt > m
    · have hdel : evictStep now m ((k, s) :: rest) (k, s) = rest := by
        unfold evictStep Registry.delete
        rw [if_pos hexp, List.filter_cons, if_neg (by simp)]
        exact List.filter_eq_self.mpr (fun p hp => by
          simpa using hne p hp)
      rw [hdel, ih hkeys.2, List.filter_cons]
      have : ¬ (now - s.createdAt ≤ m) := not_le.mpr hexp
      simp [this]
    · have hkeep : evictStep now m ((k, s) :: rest) (k, s) = (k, s) :: rest := by
        unfold evictStep
        rw [if_neg hexp]
      rw [hkeep, foldl_evict_cons now m k s rest rest hne, ih hkeys.2, List.filter_cons]
      have : now - s.createdAt ≤ m := not_lt.mp hexp
      simp [this]

lemma getFileType_code_iff (p : String) :
    getFileType p = FileType.code ↔ isCodeFile p = true := by
  unfold getFileType
  by_cases h : isCodeFile p = true
  · simp [h]
  · simp [h]

lemma getFileType_file_iff (p : String) :
    getFileType p = FileType.file ↔ ¬ getFileType p = FileType.code := by
  unfold getFileType
  by_cases h : isCodeFile p = true
  · simp [h]
  · simp [h]

/- ### Claim theorems -/

/-- Claim C1 — refuted (code bug).  Two concurrent `processMessage` calls
for the same unprovisioned thread, interleaved at the `await` points the
code really has (`getSessionByThread` is a plain check-then-act: the
handler awaits `addReaction` between the registry check and
`createSession`), make the engine create two containers, and the two
callers end up holding sessions with different `containerId`s — not the
claimed single creation observed by all callers. -/
theorem claim_race_two_containers :
    (runTwo "t1" "ch" "u1" 0 [true, false, true, true, true, false, false, false]
        { registry := [], containersCreated := 0 }
        TaskPC.checkRegistry TaskPC.checkRegistry).1.containersCreated = 2 ∧
    (runTwo "t1" "ch" "u1" 0 [true, false, true, true, true, false, false, false]
        { registry := [], containersCreated := 0 }
        TaskPC.checkRegistry TaskPC.checkRegistry).2.1
      = TaskPC.execPhase (mkSession "t1" "ch" "u1" (containerName 0) 0) ∧
    (runTwo "t1" "ch" "u1" 0 [true, false, true, true, true, false, false, false]
        { registry := [], containersCreated := 0 }
        TaskPC.checkRegistry TaskPC.checkRegistry).2.2
      = TaskPC.execPhase (mkSession "t1" "ch" "u1" (containerName 1) 0) ∧
    containerName 0 ≠ containerName 1 ∧ (2 : Nat) ≠ 1 := by
  refine ⟨rfl, rfl, rfl, by decide, by decide⟩

/-- Claim C2 — refuted (code bug).  `createSession` performs
`sessions.set` before `container.start()` and its `catch` only logs and
rethrows, so when `start` throws the error propagates with the session
still registered (status `running`) and the created container neither
stopped nor removed: a partial session and an orphaned container remain. -/
theorem claim_provision_start_failure_leaves_partial_session :
    (createSession { workspaceFails := false, createFails := false, startFails := true }
        [] "t1" "ch" "u1" "c1" 0).result = Except.error "container start failed" ∧
    Registry.get (createSession { workspaceFails := false, createFails := false, startFails := true }
        [] "t1" "ch" "u1" "c1" 0).registry "t1" = some (mkSession "t1" "ch" "u1" "c1" 0) ∧
    (createSession { workspaceFails := false, createFails := false, startFails := true }
        [] "t1" "ch" "u1" "c1" 0).created = ["c1"] ∧
    (createSession { workspaceFails := false, createFails := false, startFails := true }
        [] "t1" "ch" "u1" "c1" 0).removed = [] := by
  refine ⟨rfl, by decide, rfl, rfl⟩

/-- Claim C3 — confirmed.  On the non-throwing path of `executeClaudeCode`,
`success` is exactly emptiness of stderr, `output` is the captured stdout,
`error` is the stderr content when non-empty and absent otherwise, and the
result does not depend on the process exit code (which `executeCommand`
never surfaces). -/
theorem claim_success_iff_empty_stderr
    (sOut sErr : String) (e0 : Int) (stdout stderr : String) (ec : Int)
    (files : List FileEntry) :
    (executeClaudeCode
        { seed := ExecOutcome.ok sOut sErr e0, run := ExecOutcome.ok stdout stderr ec
          files := Except.ok files }).success = stderr.isEmpty ∧
    (executeClaudeCode
        { seed := ExecOutcome.ok sOut sErr e0, run := ExecOutcome.ok stdout stderr ec
          files := Except.ok files }).output = some stdout ∧
    (executeClaudeCode
        { seed := ExecOutcome.ok sOut sErr e0, run := ExecOutcome.ok stdout stderr ec
          files := Except.ok files }).error
      = (if stderr.isEmpty then none else some stderr) ∧
    ∀ ec' : Int,
      executeClaudeCode
        { seed := ExecOutcome.ok sOut sErr e0, run := ExecOutcome.ok stdout stderr ec
          files := Except.ok files }
        = executeClaudeCode
            { seed := ExecOutcome.ok sOut sErr e0, run := ExecOutcome.ok stdout stderr ec'
              files := Except.ok files } :=
  ⟨rfl, rfl, rfl, fun _ => rfl⟩

/-- Claim C4 — refuted (code bug).  When the exec succeeded (stdout
`"hello"`, empty stderr) but `getWorkspaceFiles` throws, the blanket
`catch` of `executeClaudeCode` returns only `success: false` and the
exception message: the captured stdout is dropped (`output` absent), not
delivered to the caller as the claim requires.  The `artifacts`-absent
part of the claim does hold: the failure result carries `none` while a
successful read of an empty workspace carries `some []`. -/
theorem claim_workspace_read_failure_drops_stdout :
    executeClaudeCode
        { seed := ExecOutcome.ok "" "" 0, run := ExecOutcome.ok "hello" "" 0
          files := Except.error "EACCES: permission denied" }
      = { success := false, output := none
          error := some "EACCES: permission denied", artifacts := none } ∧
    (executeClaudeCode
        { seed := ExecOutcome.ok "" "" 0, run := ExecOutcome.ok "hello" "" 0
          files := Except.ok [] }).artifacts = some [] :=
  ⟨rfl, rfl⟩

/-- Claim C5 — confirmed.  When every teardown succeeds (the failing case
is claim C6's subject), a sweep with threshold `maxAgeHours` removes
exactly the sessions whose age `now - createdAt` strictly exceeds
`maxAgeHours * 60 * 60 * 1000` milliseconds and returns every other entry
untouched and in place, for a registry in any order. -/
theorem claim_cleanup_evicts_exactly_expired
    (r : Registry) (now maxAgeHours : Int) (h : nodupKeys r) :
    cleanupOldSessions (fun _ => false) now maxAgeHours r
      = (r.filter (fun p => decide (now - p.2.createdAt ≤ maxAgeHours * 60 * 60 * 1000)),
         none) := by
  unfold cleanupOldSessions
  rw [cleanupGo_noFail, foldl_evict_eq_filter _ _ r h]

/-- Witness for claim C5: a concrete two-session registry, one expired and
one fresh. -/
theorem claim_cleanup_evicts_exactly_expired_witness :
    nodupKeys [("a", mkSession "a" "ch" "u" "c1" 0),
               ("b", mkSession "b" "ch" "u" "c2" 7000000)] ∧
    cleanupOldSessions (fun _ => false) 7200001 1
        [("a", mkSession "a" "ch" "u" "c1" 0), ("b", mkSession "b" "ch" "u" "c2" 7000000)]
      = ([("a", mkSession "a" "ch" "u" "c1" 0),
          ("b", mkSession "b" "ch" "u" "c2" 7000000)].filter
            (fun p => decide (7200001 - p.2.createdAt ≤ 1 * 60 * 60 * 1000)), none) :=
  ⟨by decide, claim_cleanup_evicts_exactly_expired _ 7200001 1 (by decide)⟩

/-- Claim C6 — refuted (code bug).  The sweep's `await this.stopSession`
is not wrapped in a `try` and `stopSession` rethrows teardown errors, so
the first failing teardown aborts the whole sweep: here both sessions are
expired (ages `7200001 > 3600000` ms), teardown of container `c1` throws,
and session `b` — also expired — is left in the registry unprocessed. -/
theorem claim_sweep_aborts_on_first_teardown_failure :
    cleanupOldSessions (fun cid => cid == "c1") 7200001 1
        [("a", mkSession "a" "ch" "u" "c1" 0), ("b", mkSession "b" "ch" "u" "c2" 0)]
      = ([("a", mkSession "a" "ch" "u" "c1" 0), ("b", mkSession "b" "ch" "u" "c2" 0)],
         some "TeardownFailure") ∧
    7200001 - (mkSession "b" "ch" "u" "c2" 0).createdAt > 1 * 60 * 60 * 1000 := by
  refine ⟨by decide, by decide⟩

/-- Claim C7 — confirmed.  In every registry state reachable by any
sequence of `createSession`, `stopSession` and `cleanupOldSessions`,
every stored session's `id` and `threadId` equal its map key, and two
stored entries with the same `threadId` are the same entry — so each
thread has at most one stored session (all stored sessions are `running`,
see the session-status development). -/
theorem claim_one_session_per_thread (r : Registry) (h : Reachable r) :
    (∀ p ∈ r, p.2.id = p.1 ∧ p.2.threadId = p.1) ∧
    (∀ p ∈ r, ∀ q ∈ r, p.2.threadId = q.2.threadId → p = q) := by
  obtain ⟨hn, hwf⟩ := reachable_inv h
  refine ⟨fun p hp => ⟨(hwf p hp).1, (hwf p hp).2.1⟩, fun p hp q hq hts => ?_⟩
  refine List.inj_on_of_nodup_map hn hp hq ?_
  have h1 : p.2.threadId = p.1 := (hwf p hp).2.1
  have h2 : q.2.threadId = q.1 := (hwf q hq).2.1
  rw [← h1, ← h2]
  exact hts

/-- Witness for claim C7: a reachable one-session registry. -/
theorem claim_one_session_per_thread_witness :
    (∀ p ∈ (createSession { workspaceFails := false, createFails := false, startFails := false }
        [] "t1" "ch" "u1" "c1" 0).registry, p.2.id = p.1 ∧ p.2.threadId = p.1) ∧
    (∀ p ∈ (createSession { workspaceFails := false, createFails := false, startFails := false }
        [] "t1" "ch" "u1" "c1" 0).registry,
     ∀ q ∈ (createSession { workspaceFails := false, createFails := false, startFails := false }
        [] "t1" "ch" "u1" "c1" 0).registry, p.2.threadId = q.2.threadId → p = q) :=
  claim_one_session_per_thread _
    (Reachable.create { workspaceFails := false, createFails := false, startFails := false }
      "t1" "ch" "u1" "c1" 0 Reachable.init)

/-- Claim C8 — confirmed.  Classification is decided by the fixed
extension table alone: a path is `code` exactly when it ends in one of the
25 listed extensions and `file` exactly otherwise, and the artifact list
classifies each file by its own path pointwise, independently of the
other files and of their order. -/
theorem claim_classification_by_extension (p : String) (files : List FileEntry) :
    (getFileType p = FileType.code ↔
      (p.endsWith ".ts" = true ∨ p.endsWith ".js" = true ∨ p.endsWith ".tsx" = true ∨
       p.endsWith ".jsx" = true ∨ p.endsWith ".py" = true ∨ p.endsWith ".java" = true ∨
       p.endsWith ".c" = true ∨ p.endsWith ".cpp" = true ∨ p.endsWith ".go" = true ∨
       p.endsWith ".rs" = true ∨ p.endsWith ".rb" = true ∨ p.endsWith ".php" = true ∨
       p.endsWith ".swift" = true ∨ p.endsWith ".kt" = true ∨ p.endsWith ".cs" = true ∨
       p.endsWith ".html" = true ∨ p.endsWith ".css" = true ∨ p.endsWith ".scss" = true ∨
       p.endsWith ".json" = true ∨ p.endsWith ".yaml" = true ∨ p.endsWith ".yml" = true ∨
       p.endsWith ".toml" = true ∨ p.endsWith ".md" = true ∨ p.endsWith ".sh" = true ∨
       p.endsWith ".bash" = true)) ∧
    (getFileType p = FileType.file ↔
      ¬(p.endsWith ".ts" = true ∨ p.endsWith ".js" = true ∨ p.endsWith ".tsx" = true ∨
       p.endsWith ".jsx" = true ∨ p.endsWith ".py" = true ∨ p.endsWith ".java" = true ∨
       p.endsWith ".c" = true ∨ p.endsWith ".cpp" = true ∨ p.endsWith ".go" = true ∨
       p.endsWith ".rs" = true ∨ p.endsWith ".rb" = true ∨ p.endsWith ".php" = true ∨
       p.endsWith ".swift" = true ∨ p.endsWith ".kt" = true ∨ p.endsWith ".cs" = true ∨
       p.endsWith ".html" = true ∨ p.endsWith ".css" = true ∨ p.endsWith ".scss" = true ∨
       p.endsWith ".json" = true ∨ p.endsWith ".yaml" = true ∨ p.endsWith ".yml" = true ∨
       p.endsWith ".toml" = true ∨ p.endsWith ".md" = true ∨ p.endsWith ".sh" = true ∨
       p.endsWith ".bash" = true)) ∧
    (mkArtifacts files).map (fun a => a.type) = files.map (fun f => getFileType f.path) := by
  have hcode : getFileType p = FileType.code ↔
      (p.endsWith ".ts" = true ∨ p.endsWith ".js" = true ∨ p.endsWith ".tsx" = true ∨
       p.endsWith ".jsx" = true ∨ p.endsWith ".py" = true ∨ p.endsWith ".java" = true ∨
       p.endsWith ".c" = true ∨ p.endsWith ".cpp" = true ∨ p.endsWith ".go" = true ∨
       p.endsWith ".rs" = true ∨ p.endsWith ".rb" = true ∨ p.endsWith ".php" = true ∨
       p.endsWith ".swift" = true ∨ p.endsWith ".kt" = true ∨ p.endsWith ".cs" = true ∨
       p.endsWith ".html" = true ∨ p.endsWith ".css" = true ∨ p.endsWith ".scss" = true ∨
       p.endsWith ".json" = true ∨ p.endsWith ".yaml" = true ∨ p.endsWith ".yml" = true ∨
       p.endsWith ".toml" = true ∨ p.endsWith ".md" = true ∨ p.endsWith ".sh" = true ∨
       p.endsWith ".bash" = true) := by
    rw [getFileType_code_iff]
    simp [isCodeFile, codeExtensions]
  refine ⟨hcode, ?_, ?_⟩
  · rw [getFileType_file_iff]
    exact not_congr hcode
  · simp [mkArtifacts]

/-- Claim C9 — refuted (code bug).  The seeding command escapes only the
double quote (`replace(/"/g, '\\"')`); `$`, backtick and backslash reach
the double-quoted `echo` argument unescaped, where the shell interprets
them.  Concretely: a quoted message survives, but `$HOME` and a backtick
command substitution are expanded rather than written literally, and a
message of two backslashes is written back as one — the file's content is
not the raw message for those metacharacters. -/
theorem claim_escaping_handles_only_double_quotes :
    dqContent (escapeMessage "say \"hi\"").data = some ("say \"hi\"".data) ∧
    dqContent (escapeMessage "$HOME").data = none ∧
    dqContent (escapeMessage "`id`").data = none ∧
    dqContent (escapeMessage "a\\\\b").data = some ("a\\b".data) ∧
    ("a\\b" : String) ≠ "a\\\\b" := by
  refine ⟨by decide, by decide, by decide, by decide, by decide⟩

/-- Claim C10 — the claim as stated is false: an unrecoverable execution
error (the `ccr` exec throws) is caught by `executeClaudeCode`, which
returns a failure response; no code path writes `status = 'failed'`, so
the affected thread's registered session still has status `running`
afterwards, and the registry entry is unchanged. -/
theorem claim_exec_error_leaves_status_running :
    (processCommand
        { seed := ExecOutcome.ok "" "" 0, run := ExecOutcome.err "engine stream error"
          files := Except.ok [] }
        [("t1", mkSession "t1" "ch" "u1" "c1" 0)] "t1" "ch" "u1" "c9" 5).1
      = [("t1", mkSession "t1" "ch" "u1" "c1" 0)] ∧
    (processCommand
        { seed := ExecOutcome.ok "" "" 0, run := ExecOutcome.err "engine stream error"
          files := Except.ok [] }
        [("t1", mkSession "t1" "ch" "u1" "c1" 0)] "t1" "ch" "u1" "c9" 5).2.success = false ∧
    (mkSession "t1" "ch" "u1" "c1" 0).status = Status.running ∧
    Status.running ≠ Status.failed := by
  refine ⟨by decide, rfl, rfl, by decide⟩

/-- Claim C10 as amended — proved.  A session transitions to `completed`
and leaves the registry exactly when it is explicitly stopped (or evicted
by the sweep, which calls the same `stopSession`); execution errors never
change a status: in every reachable registry state all stored sessions
are `running` (so none is ever `failed`), and a successful `stopSession`
yields the record with status `completed` while removing the entry. -/
theorem claim_stop_completes_and_failed_never_assigned
    (r : Registry) (h : Reachable r) :
    (∀ p ∈ r, p.2.status = Status.running) ∧
    (∀ sid s, Registry.get r sid = some s →
      (stopSession (fun _ => false) r sid).stopped
          = some { s with status := Status.completed } ∧
      Registry.get (stopSession (fun _ => false) r sid).registry sid = none) := by
  obtain ⟨_, hwf⟩ := reachable_inv h
  refine ⟨fun p hp => (hwf p hp).2.2, fun sid s hget => ?_⟩
  rw [stopSession_noFail, hget]
  exact ⟨rfl, get_delete_self r sid⟩

/-- Witness for the amended claim C10: a reachable one-session registry,
with the inner hypothesis discharged at thread `t1`. -/
theorem claim_stop_completes_and_failed_never_assigned_witness :
    ((∀ p ∈ (createSession { workspaceFails := false, createFails := false, startFails := false }
        [] "t1" "ch" "u1" "c1" 0).registry, p.2.status = Status.running) ∧
     (∀ sid s, Registry.get (createSession
          { workspaceFails := false, createFails := false, startFails := false }
          [] "t1" "ch" "u1" "c1" 0).registry sid = some s →
       (stopSession (fun _ => false)
           (createSession { workspaceFails := false, createFails := false, startFails := false }
             [] "t1" "ch" "u1" "c1" 0).registry sid).stopped
           = some { s with status := Status.completed } ∧
       Registry.get (stopSession (fun _ => false)
           (createSession { workspaceFails := false, createFails := false, startFails := false }
             [] "t1" "ch" "u1" "c1" 0).registry sid).registry sid = none)) ∧
    Registry.get (createSession { workspaceFails := false, createFails := false, startFails := false }
        [] "t1" "ch" "u1" "c1" 0).registry "t1" = some (mkSession "t1" "ch" "u1" "c1" 0) :=
  ⟨claim_stop_completes_and_failed_never_assigned _
      (Reachable.create { workspaceFails := false, createFails := false, startFails := false }
        "t1" "ch" "u1" "c1" 0 Reachable.init),
   by decide⟩

end V59
